import Mathlib

/-!
Verification of the Telegram signal pipeline of the QuotexTrading repository.

The development shallowly embeds the two Python modules
src/app/signal_reader_telegram.py and src/app/telegram_signal_live.py:

* lines of text are lists of characters; the regular expressions of the
  reader module are translated into explicit recognizer functions;
* the stateful TelegramSignalParser becomes a pure step function
  feedLine : ParserState -> String -> ParserState x Option TelegramSignal;
* Python floats are modelled as rationals (all values involved are short
  decimal literals, on which float comparison agrees with the rational one);
* Python epoch instants are whole seconds (Int) for schedule resolution and
  rationals for the follower clock;
* fallible code paths (int(...) conversions, datetime.replace) are modelled
  with Option, the surrounding try/except becoming the None branch.

ScheduledTelegramSignal and schedule_signal are imported by
telegram_signal_live.py but defined nowhere in the repository; the record
type is modelled from the spec (section 3) where it is needed by the
admission filter and the handler.
-/

/-- Whitespace for Python str.strip and the \s regex class (ASCII part). -/
def isPySpace (c : Char) : Bool :=
  c = ' ' ∨ c = '\t' ∨ c = '\n' ∨ c = '\r' ∨ c = '\x0b' ∨ c = '\x0c'

/-- Python str.strip: drop whitespace from both ends. -/
def pystrip (l : List Char) : List Char :=
  ((l.dropWhile isPySpace).reverse.dropWhile isPySpace).reverse

/-- Boolean list-prefix test on characters. -/
def startsWithB : List Char → List Char → Bool
  | [], _ => true
  | _ :: _, [] => false
  | p :: ps, c :: cs => p = c && startsWithB ps cs

/-- Boolean substring test: pat occurs contiguously in the second list. -/
def containsSub (pat : List Char) : List Char → Bool
  | [] => startsWithB pat []
  | c :: cs => startsWithB pat (c :: cs) || containsSub pat cs

/-- Case-insensitive literal match: consume pat (given lowercase) from l,
returning the rest of l on success. -/
def expectCI : List Char → List Char → Option (List Char)
  | [], l => some l
  | _ :: _, [] => none
  | p :: ps, c :: cs => if c.toLower = p then expectCI ps cs else none

/-- Numeric value of a digit string. -/
def digitsToNat (l : List Char) : Nat :=
  l.foldl (fun a c => 10 * a + (c.toNat - '0'.toNat)) 0

/-- Characters admitted by the asset-ticker class [A-Z0-9\-_/] under
re.IGNORECASE (so lowercase letters as well). -/
def isAssetChar (c : Char) : Bool :=
  c.isUpper || c.isLower || c.isDigit || c = '-' || c = '_' || c = '/'

/-- Word characters of the regex \b boundary (ASCII part of \w). -/
def isWordChar (c : Char) : Bool :=
  c.isAlpha || c.isDigit || c = '_'

/-- Trade directions, the strings "call" and "put" of the Python source. -/
inductive Dir where
  | call
  | put
deriving DecidableEq

/-- Trend values, the title-cased strings "Buy" and "Sell" of the source. -/
inductive Trend where
  | Buy
  | Sell
deriving DecidableEq

/-- _ASSET_LINE_RE: whole-line match of optional spaces, the card emoji,
spaces, a nonempty ticker of asset characters, trailing spaces. -/
def matchAssetLine (s : List Char) : Option (List Char) :=
  match s.dropWhile isPySpace with
  | '💳' :: rest =>
    let rest := rest.dropWhile isPySpace
    let grp := rest.takeWhile isAssetChar
    if grp ≠ [] && (rest.drop grp.length).all isPySpace then some grp else none
  | _ => none

/-- _TIMEFRAME_RE: whole-line match of the fire emoji, spaces, the letter M
(case-insensitive), digits, trailing spaces; yields the minute count. -/
def matchTimeframe (s : List Char) : Option Nat :=
  match s.dropWhile isPySpace with
  | '🔥' :: rest =>
    match (rest.dropWhile isPySpace) with
    | m :: rest2 =>
      if m.toLower = 'm' then
        let grp := rest2.takeWhile Char.isDigit
        if grp ≠ [] && (rest2.drop grp.length).all isPySpace then
          some (digitsToNat grp)
        else none
      else none
    | [] => none
  | _ => none

/-- The [0-2]?\d:\d\d(:\d\d)? core of _TRADE_TIME_RE with the regex
backtracking made explicit; hd is the already-consumed hour, l the rest.
Returns the captured time characters. -/
def matchTimeTail (hd : List Char) (l : List Char) : Option (List Char) :=
  match l with
  | ':' :: d1 :: d2 :: r =>
    if d1.isDigit && d2.isDigit then
      match r with
      | ':' :: e1 :: e2 :: r2 =>
        if e1.isDigit && e2.isDigit && r2.all isPySpace then
          some (hd ++ [':', d1, d2, ':', e1, e2])
        else if r.all isPySpace then some (hd ++ [':', d1, d2]) else none
      | r1 => if r1.all isPySpace then some (hd ++ [':', d1, d2]) else none
    else none
  | _ => none

/-- _TRADE_TIME_RE: the hourglass emoji, spaces, a time with one- or
two-digit hour (two digits only when the first is 0..2), minutes, optional
seconds, trailing spaces; yields the literal captured time string. -/
def matchTradeTime (s : List Char) : Option (List Char) :=
  match s.dropWhile isPySpace with
  | '⌛' :: rest =>
    match rest.dropWhile isPySpace with
    | a :: b :: r =>
      if ('0' ≤ a && a ≤ '2') && b.isDigit then
        match matchTimeTail [a, b] r with
        | some g => some g
        | none => if a.isDigit then matchTimeTail [a] (b :: r) else none
      else if a.isDigit then matchTimeTail [a] (b :: r) else none
    | _ => none
  | _ => none

/-- Leftmost whole-word occurrence of call or put, the
_DIRECTION_WORD_RE.search fallback; the flag records whether the previous
character was a word character (for the left \b boundary). -/
def searchDirWord (prevWord : Bool) : List Char → Option Dir
  | [] => none
  | c :: rest =>
    if !prevWord && (match expectCI ['c', 'a', 'l', 'l'] (c :: rest) with
        | some r => match r with | [] => true | d :: _ => !isWordChar d
        | none => false) then
      some Dir.call
    else if !prevWord && (match expectCI ['p', 'u', 't'] (c :: rest) with
        | some r => match r with | [] => true | d :: _ => !isWordChar d
        | none => false) then
      some Dir.put
    else searchDirWord (isWordChar c) rest

/-- _normalize_direction_from_line: the up glyph or the substring
space-call on the lowercased line give call; else the down glyph or the
substring space-put give put; else the leftmost whole word call/put. -/
def normalizeDirection (s : List Char) : Option Dir :=
  let sLow := s.map Char.toLower
  if containsSub ['🔼'] sLow || containsSub [' ', 'c', 'a', 'l', 'l'] sLow then
    some Dir.call
  else if containsSub ['🔽'] sLow || containsSub [' ', 'p', 'u', 't'] sLow then
    some Dir.put
  else searchDirWord false s

/-- _TREND_RE: the traffic-light emoji, spaces, Trend or Tend
(case-insensitive), spaces, a colon, spaces, Buy or Sell, trailing spaces;
the value is returned title-cased. -/
def matchTrend (s : List Char) : Option Trend :=
  match s.dropWhile isPySpace with
  | '🚦' :: rest =>
    let rest := rest.dropWhile isPySpace
    match (match expectCI ['t', 'r', 'e', 'n', 'd'] rest with
           | some r => some r
           | none => expectCI ['t', 'e', 'n', 'd'] rest) with
    | some r1 =>
      match (r1.dropWhile isPySpace) with
      | ':' :: r2 =>
        let r3 := r2.dropWhile isPySpace
        match expectCI ['b', 'u', 'y'] r3 with
        | some r4 => if r4.all isPySpace then some Trend.Buy else none
        | none =>
          match expectCI ['s', 'e', 'l', 'l'] r3 with
          | some r4 => if r4.all isPySpace then some Trend.Sell else none
          | none => none
      | _ => none
    | none => none
  | _ => none

/-- The [0-9]+(\.[0-9]+)?% value of the forecast and payout lines, as an
exact rational (Python parses it with float; the decimals in scope are
short enough that float and rational comparisons agree). -/
def matchPercentTail (l : List Char) : Option ℚ :=
  let ip := l.takeWhile Char.isDigit
  if ip = [] then none else
  let r1 := l.drop ip.length
  match r1 with
  | '.' :: r2 =>
    let fp := r2.takeWhile Char.isDigit
    if fp = [] then none else
    match r2.drop fp.length with
    | '%' :: r3 =>
      if r3.all isPySpace then
        some ((digitsToNat ip : ℚ) + (digitsToNat fp : ℚ) / ((10 : ℚ) ^ fp.length))
      else none
    | _ => none
  | '%' :: r3 =>
    if r3.all isPySpace then some ((digitsToNat ip : ℚ)) else none
  | _ => none

/-- _FORECAST_RE: chart emoji, spaces, Forecast (case-insensitive), spaces,
colon, spaces, a percentage. -/
def matchForecast (s : List Char) : Option ℚ :=
  match s.dropWhile isPySpace with
  | '📈' :: rest =>
    match expectCI ['f', 'o', 'r', 'e', 'c', 'a', 's', 't']
        (rest.dropWhile isPySpace) with
    | some r1 =>
      match r1.dropWhile isPySpace with
      | ':' :: r2 => matchPercentTail (r2.dropWhile isPySpace)
      | _ => none
    | none => none
  | _ => none

/-- _PAYOUT_RE: money emoji, spaces, Payout (case-insensitive), spaces,
colon, spaces, a percentage. -/
def matchPayout (s : List Char) : Option ℚ :=
  match s.dropWhile isPySpace with
  | '💸' :: rest =>
    match expectCI ['p', 'a', 'y', 'o', 'u', 't'] (rest.dropWhile isPySpace) with
    | some r1 =>
      match r1.dropWhile isPySpace with
      | ':' :: r2 => matchPercentTail (r2.dropWhile isPySpace)
      | _ => none
    | none => none
  | _ => none

/-- The TelegramSignal dataclass; floats become rationals, the raw block is
the joined tail of accumulated lines. -/
structure TelegramSignal where
  asset : String
  direction : Dir
  timeframe_min : Option Nat
  trade_time : Option String
  trend : Option Trend
  forecast_pct : Option ℚ
  payout_pct : Option ℚ
  raw_block : String
deriving DecidableEq

/-- The _state dictionary of TelegramSignalParser with its seven optional
fields made explicit (each key of the dict is either absent or holds a
fully parsed value, so an option-typed record is an exact model). -/
structure PendingState where
  asset : Option String
  timeframe : Option Nat
  tradeTime : Option String
  direction : Option Dir
  trend : Option Trend
  forecast : Option ℚ
  payout : Option ℚ
deriving DecidableEq

def emptyPending : PendingState :=
  ⟨none, none, none, none, none, none, none⟩

/-- Full parser instance state: the field dictionary and _block_lines. -/
structure ParserState where
  state : PendingState
  blockLines : List String
deriving DecidableEq

def initParser : ParserState := ⟨emptyPending, []⟩

/-- List of the last n elements, Python l[-n:]. -/
def lastN (n : Nat) (l : List String) : List String :=
  l.drop (l.length - n)

/-- TelegramSignalParser._maybe_emit: needs asset and direction; without
partial_ok it additionally needs trade_time; on success it builds the
signal snapshot and clears exactly the direction key. -/
def maybeEmit (lenient : Bool) (st : PendingState) (blockLines : List String) :
    Option TelegramSignal × PendingState :=
  match st.asset, st.direction with
  | some a, some d =>
    if lenient = false ∧ st.tradeTime = none then (none, st)
    else
      (some { asset := a
              direction := d
              timeframe_min := st.timeframe
              trade_time := st.tradeTime
              trend := st.trend
              forecast_pct := st.forecast
              payout_pct := st.payout
              raw_block := String.intercalate "\n" (lastN 12 blockLines) },
       { st with direction := none })
  | _, _ => (none, st)

/-- Field-extractor application: the asset assignment of feed_line. -/
def applyAsset (s : List Char) (st : PendingState) : PendingState :=
  match matchAssetLine s with
  | some a => { st with asset := some (String.mk a) }
  | none => st

/-- Field-extractor application: the timeframe assignment of feed_line. -/
def applyTimeframe (s : List Char) (st : PendingState) : PendingState :=
  match matchTimeframe s with
  | some v => { st with timeframe := some v }
  | none => st

/-- Field-extractor application: the trade-time assignment of feed_line. -/
def applyTradeTime (s : List Char) (st : PendingState) : PendingState :=
  match matchTradeTime s with
  | some v => { st with tradeTime := some (String.mk v) }
  | none => st

/-- Field-extractor application: the direction assignment of feed_line. -/
def applyDirection (s : List Char) (st : PendingState) : PendingState :=
  match normalizeDirection s with
  | some v => { st with direction := some v }
  | none => st

/-- Field-extractor application: the trend assignment of feed_line. -/
def applyTrend (s : List Char) (st : PendingState) : PendingState :=
  match matchTrend s with
  | some v => { st with trend := some v }
  | none => st

/-- Field-extractor application: the forecast assignment of feed_line. -/
def applyForecast (s : List Char) (st : PendingState) : PendingState :=
  match matchForecast s with
  | some v => { st with forecast := some v }
  | none => st

/-- Field-extractor application: the payout assignment of feed_line. -/
def applyPayout (s : List Char) (st : PendingState) : PendingState :=
  match matchPayout s with
  | some v => { st with payout := some v }
  | none => st

/-- The seven extractor applications of feed_line, in source order. -/
def updateFields (s : List Char) (st : PendingState) : PendingState :=
  applyPayout s (applyForecast s (applyTrend s (applyDirection s
    (applyTradeTime s (applyTimeframe s (applyAsset s st))))))

/-- The tail of feed_line after boundary handling: apply the extractors,
then attempt a lenient emission. -/
def processFields (p : ParserState) (s : List Char) :
    ParserState × Option TelegramSignal :=
  let st := updateFields s p.state
  let r := maybeEmit true st p.blockLines
  ({ p with state := r.2 }, r.1)

/-- Does the stripped line start a WIN outcome marker (upper-cased check)? -/
def isWinStart (s : List Char) : Bool :=
  startsWithB ['W', 'I', 'N'] (s.map Char.toUpper)

/-- Does the stripped line start with the asset-marker emoji? -/
def isAssetStart (s : List Char) : Bool :=
  match s with
  | '💳' :: _ => true
  | _ => false

/-- TelegramSignalParser.feed_line. A blank line attempts a strict
emission. A non-blank line is appended to the block buffer; a WIN or
asset-marker line first attempts a strict emission of the pending record
(pre-reset), an asset-marker line then resets state and buffer; when that
strict attempt produced nothing (or the line is ordinary) the extractors
run and a lenient emission is attempted. -/
def feedLine (p : ParserState) (line : String) :
    ParserState × Option TelegramSignal :=
  let s := pystrip line.data
  if s = [] then
    let r := maybeEmit false p.state p.blockLines
    ({ p with state := r.2 }, r.1)
  else
    let p1 : ParserState := { p with blockLines := p.blockLines ++ [String.mk s] }
    if isWinStart s || isAssetStart s then
      let r := maybeEmit false p1.state p1.blockLines
      let p2 : ParserState :=
        if isAssetStart s then ⟨emptyPending, [String.mk s]⟩
        else { p1 with state := r.2 }
      match r.1 with
      | some sg => (p2, some sg)
      | none => processFields p2 s
    else processFields p1 s

/-- Feed a list of lines in order, collecting every emitted signal (the
loop of parse_file_once before its dedup step). -/
def runLines (p : ParserState) : List String → ParserState × List TelegramSignal
  | [] => (p, [])
  | l :: rest =>
    let r := feedLine p l
    let rr := runLines r.1 rest
    (rr.1, r.2.toList ++ rr.2)

/-- Run the parser from its initial state. -/
def runParser (lines : List String) : ParserState × List TelegramSignal :=
  runLines initParser lines

/-- A parser state the block parser can actually be in after some feed. -/
def Reachable (p : ParserState) : Prop :=
  ∃ lines : List String, (runParser lines).1 = p

/-- Split a character list on a separator character, Python str.split(sep)
(a list of possibly empty fields, one more field than separators). -/
def splitCh (sep : Char) : List Char → List (List Char)
  | [] => [[]]
  | c :: rest =>
    let r := splitCh sep rest
    if c = sep then [] :: r
    else
      match r with
      | f :: fs => (c :: f) :: fs
      | [] => [[c]]

/-- Digit run with Python underscore grouping: digits, optionally separated
by single underscores between digit groups. -/
def pyDigitRun : List Char → Bool
  | [] => true
  | '_' :: c :: rest => c.isDigit && pyDigitRun rest
  | '_' :: [] => false
  | c :: rest => c.isDigit && pyDigitRun rest

/-- Python int(str): surrounding whitespace, an optional sign, then a
nonempty digit run (underscore grouping allowed); anything else raises,
modelled as none. -/
def pyParseInt (l : List Char) : Option Int :=
  let t := pystrip l
  let core : List Char → Option Int := fun d =>
    if d ≠ [] && d.headD ' ' ≠ '_' && pyDigitRun d then
      some (digitsToNat (d.filter (fun c => c ≠ '_')))
    else none
  match t with
  | '-' :: d => (core d).map (fun v => -v)
  | '+' :: d => core d
  | d => core d

/-- The body of the try block of ist_epoch_for_trade_time: split on colons,
convert the first two fields (and the third when present) with int, and
check the ranges datetime.replace enforces; any failure raises, which the
enclosing except turns into the sentinel, so the model returns none. -/
def parseHMS (hhmm : String) : Option (Int × Int × Int) :=
  match splitCh ':' hhmm.data with
  | p0 :: p1 :: rest =>
    match pyParseInt p0, pyParseInt p1 with
    | some h, some m =>
      let sec : Option Int :=
        match rest with
        | [] => some 0
        | p2 :: _ => pyParseInt p2
      match sec with
      | some s =>
        if 0 ≤ h ∧ h ≤ 23 ∧ 0 ≤ m ∧ m ≤ 59 ∧ 0 ≤ s ∧ s ≤ 59 then
          some (h, m, s)
        else none
      | none => none
    | _, _ => none
  | _ => none

/-- ist_epoch_for_trade_time over a fixed UTC offset of tzOffset seconds
(the source pins the offset to the Asia/Kolkata 19800 when zoneinfo is
available and 0 otherwise; both zones are fixed-offset, so one offset
parameter covers the code). The reference instant is whole epoch seconds.
The candidate is the given wall-clock time on the local calendar date of
the reference; a candidate not strictly later than the reference is pushed
one day forward; parse failures yield the sentinel 0. -/
def ist_epoch_for_trade_time (hhmm : String) (ref : Int) (tzOffset : Int) : Int :=
  match parseHMS hhmm with
  | none => 0
  | some (h, m, s) =>
    let localRef := ref + tzOffset
    let dayStart := 86400 * localRef.fdiv 86400
    let cand := dayStart + 3600 * h + 60 * m + s
    let cand2 := if cand ≤ localRef then cand + 86400 else cand
    cand2 - tzOffset

/-- Admission verdict reasons; the source stores the strings
forecast-below-threshold (formatted with the configured minimum),
asset_cooldown, missed_entry and ok in the reason field. -/
inductive Reason where
  | blank
  | forecastBelow
  | assetCooldown
  | missedEntry
  | ok
deriving DecidableEq

/-- Modelled from the spec: the ScheduledSignal record of section 3 of the
spec (the ScheduledTelegramSignal type that telegram_signal_live.py imports
is defined nowhere in the repository). It extends the parsed signal with
the optional absolute trade epoch, the entry lead, and the verdict pair. -/
structure ScheduledTelegramSignal where
  asset : String
  direction : Dir
  timeframe_min : Option Nat
  trade_time : Option String
  trend : Option Trend
  forecast_pct : Option ℚ
  payout_pct : Option ℚ
  raw_block : String
  trade_epoch : Option Int
  entry_lead_s : Int
  ignored : Bool
  reason : Reason
deriving DecidableEq

/-- The dedup key asset|trade_time-or-empty|direction. -/
def ScheduledTelegramSignal.key (sig : ScheduledTelegramSignal) : String :=
  sig.asset ++ "|" ++ sig.trade_time.getD "" ++ "|" ++
    (match sig.direction with | Dir.call => "call" | Dir.put => "put")

/-- The S19Config fields the admission filter and handler read. -/
structure S19Config where
  min_forecast : ℚ
  cooldown_same_asset_s : Int
  allow_past_grace_s : Int
  trade : Bool
deriving DecidableEq

/-- self.cooldowns.get(asset, 0.0) on the cooldown table, modelled as an
association list read through its most recent binding. -/
def lookupCd (cds : List (String × ℚ)) (a : String) : ℚ :=
  match cds.find? (fun e => e.1 = a) with
  | some e => e.2
  | none => 0

/-- The forecast rule condition of Strategy19Follower._filter: forecast
known and below the configured minimum. -/
def forecastTripsB (cfg : S19Config) (sig : ScheduledTelegramSignal) : Bool :=
  match sig.forecast_pct with
  | some f => f < cfg.min_forecast
  | none => false

/-- Strategy19Follower._filter: forecast rule, then cooldown rule, then
missed-entry rule with grace, first match setting ignored and a reason;
otherwise the reason becomes ok (the ignored flag is left as it came). -/
def filterSignal (cfg : S19Config) (cds : List (String × ℚ)) (now : ℚ)
    (sig : ScheduledTelegramSignal) : ScheduledTelegramSignal :=
  if forecastTripsB cfg sig then
    { sig with ignored := true, reason := Reason.forecastBelow }
  else if now < lookupCd cds sig.asset then
    { sig with ignored := true, reason := Reason.assetCooldown }
  else
    match sig.trade_epoch with
    | some te =>
      if ((te : ℚ) - (sig.entry_lead_s : ℚ)) < now then
        if now - ((te : ℚ) - (sig.entry_lead_s : ℚ)) > (cfg.allow_past_grace_s : ℚ) then
          { sig with ignored := true, reason := Reason.missedEntry }
        else { sig with reason := Reason.ok }
      else { sig with reason := Reason.ok }
    | none => { sig with reason := Reason.ok }

/-- The mutable per-follower state _handle_signal touches. -/
structure FollowerState where
  seen : List String
  cooldowns : List (String × ℚ)
deriving DecidableEq

/-- The injected execute_cb call, which may raise; the raise is modelled by
the error branch of Except. -/
def runCallback (raises : Bool) : Except String Unit :=
  if raises then Except.error "exec failed" else Except.ok ()

/-- Strategy19Follower._handle_signal: drop already-seen keys; otherwise
record the key, run the admission filter (at clock nowFilter), log and
print (pure model: the filtered signal is returned), invoke the callback
when trading is on, the verdict accepted and a callback is installed — an
exception from it is caught (the returned flag) — and finally, always,
reset the cooldown of the asset to the later clock nowEnd plus the
configured cooldown. -/
def handleSignal (cfg : S19Config) (st : FollowerState)
    (sig : ScheduledTelegramSignal) (nowFilter nowEnd : ℚ)
    (hasCb cbRaises : Bool) :
    FollowerState × Option ScheduledTelegramSignal × Bool :=
  if sig.key ∈ st.seen then (st, none, false)
  else
    let seen2 := st.seen ++ [sig.key]
    let sig2 := filterSignal cfg st.cooldowns nowFilter sig
    let execErr :=
      if cfg.trade && !sig2.ignored && hasCb then
        match runCallback cbRaises with
        | Except.error _ => true
        | Except.ok _ => false
      else false
    let cds2 := (sig.asset, nowEnd + (cfg.cooldown_same_asset_s : ℚ)) :: st.cooldowns
    (⟨seen2, cds2⟩, some sig2, execErr)

/-- Top-level names bound by the signal_reader_telegram module (imports,
regexes, the dataclass, the parser class and the module functions). -/
def signalReaderTelegramNames : List String :=
  ["asyncio", "os", "re", "dataclass", "datetime", "timezone", "timedelta",
   "AsyncIterator", "Dict", "List", "Optional", "Set", "ZoneInfo",
   "TelegramSignal", "_ASSET_RE", "_ASSET_LINE_RE", "_TIMEFRAME_RE",
   "_TRADE_TIME_RE", "_DIRECTION_WORD_RE", "_TREND_RE", "_FORECAST_RE",
   "_PAYOUT_RE", "_normalize_direction_from_line", "TelegramSignalParser",
   "tail_file", "parse_file_once", "ist_epoch_for_trade_time"]

/-- The names telegram_signal_live.py demands from the reader module in
both of its import attempts. -/
def liveFollowerRequiredNames : List String :=
  ["TelegramSignalParser", "schedule_signal", "ScheduledTelegramSignal"]

/-- A from-import of required names out of a module binding the given
names: it succeeds exactly when every required name is bound. -/
def fromImportAttempt (bound required : List String) : Except String Unit :=
  if required.all (fun n => bound.contains n) then Except.ok ()
  else Except.error "ImportError"

/-- Module initialization of telegram_signal_live.py: the direct import,
on failure the package-relative import (both resolve the same reader
module source, so they bind the same names), on failure the explicit
raise ImportError. -/
def telegramSignalLiveModuleInit : Except String Unit :=
  match fromImportAttempt signalReaderTelegramNames liveFollowerRequiredNames with
  | Except.ok _ => Except.ok ()
  | Except.error _ =>
    match fromImportAttempt signalReaderTelegramNames liveFollowerRequiredNames with
    | Except.ok _ => Except.ok ()
    | Except.error e => Except.error ("Cannot import signal_reader_telegram: " ++ e)

/-- The concrete block lines used by the claims (the sample block of the
source file header). -/
def assetLine : String := "💳 USDBDT-OTC"

def tfLine : String := "🔥 M1"

def timeLine : String := "⌛ 23:10:00"

def trendLine : String := "🚦 Tend: Sell"

def foreLine : String := "📈 Forecast: 73.35%"

def payLine : String := "💸 Payout: 82.0%"

def dirLine : String := "🔽 put"

def upLine : String := "🔼"

def downLine : String := "🔽"

/-- The five block lines other than the asset marker and the direction. -/
def midFive : List String := [tfLine, timeLine, trendLine, foreLine, payLine]

/-- A pending record that lacks the asset or lacks the direction. -/
def NoBoth (st : PendingState) : Prop :=
  st.asset = none ∨ st.direction = none

theorem maybeEmit_noBoth (b : Bool) (st : PendingState) (bl : List String)
    (h : NoBoth st) : maybeEmit b st bl = (none, st) := by
  rcases st with ⟨a, tf, tt, d, tr, f, pp⟩
  rcases h with h | h <;> dsimp only at h <;> subst h
  · cases d <;> rfl
  · cases a <;> rfl

theorem maybeEmit_dirNone (b : Bool) (st : PendingState) (bl : List String)
    (h : st.direction = none) : maybeEmit b st bl = (none, st) :=
  maybeEmit_noBoth b st bl (Or.inr h)

theorem maybeEmit_true_some (st : PendingState) (bl : List String)
    (a : String) (d : Dir) (ha : st.asset = some a) (hd : st.direction = some d) :
    maybeEmit true st bl =
      (some { asset := a, direction := d, timeframe_min := st.timeframe,
              trade_time := st.tradeTime, trend := st.trend,
              forecast_pct := st.forecast, payout_pct := st.payout,
              raw_block := String.intercalate "\n" (lastN 12 bl) },
       { st with direction := none }) := by
  rcases st with ⟨a', tf, tt, d', tr, f, pp⟩
  dsimp only at ha hd
  subst ha; subst hd
  dsimp only [maybeEmit]
  rw [if_neg (by simp)]

theorem maybeEmit_true_snd (st : PendingState) (bl : List String) :
    NoBoth ((maybeEmit true st bl).2) := by
  rcases st with ⟨a, tf, tt, d, tr, f, pp⟩
  cases a <;> cases d <;>
    simp [maybeEmit, NoBoth]

theorem processFields_noBoth (p : ParserState) (s : List Char) :
    NoBoth ((processFields p s).1.state) :=
  maybeEmit_true_snd _ _

theorem feedLine_noBoth (p : ParserState) (line : String)
    (h : NoBoth p.state) : NoBoth ((feedLine p line).1.state) := by
  by_cases hb : pystrip line.data = []
  · simp only [feedLine, hb, if_pos, if_true, reduceIte,
      maybeEmit_noBoth false p.state p.blockLines h]
    exact h
  · by_cases hw : (isWinStart (pystrip line.data) ||
        isAssetStart (pystrip line.data)) = true
    · simp only [feedLine, hb, hw, if_false, if_true, reduceIte,
        maybeEmit_noBoth false p.state _ h]
      exact processFields_noBoth _ _
    · simp only [feedLine, hb, hw, if_false, reduceIte]
      exact processFields_noBoth _ _

theorem runLines_noBoth (lines : List String) :
    ∀ p : ParserState, NoBoth p.state → NoBoth ((runLines p lines).1.state) := by
  induction lines with
  | nil => intro p h; exact h
  | cons l rest ih =>
    intro p h
    exact ih _ (feedLine_noBoth p l h)

theorem reachable_noBoth (p : ParserState) (h : Reachable p) : NoBoth p.state := by
  obtain ⟨ls, hls⟩ := h
  rw [← hls]
  exact runLines_noBoth ls initParser (Or.inl rfl)

theorem feedLine_plain (p : ParserState) (line : String)
    (h1 : ¬pystrip line.data = [])
    (h2 : (isWinStart (pystrip line.data) || isAssetStart (pystrip line.data)) = false) :
    feedLine p line =
      processFields
        { p with blockLines := p.blockLines ++ [String.mk (pystrip line.data)] }
        (pystrip line.data) := by
  simp only [feedLine, h1, h2, Bool.false_eq_true, if_false, reduceIte]

theorem processFields_dirNone (p : ParserState) (s : List Char)
    (h : (updateFields s p.state).direction = none) :
    processFields p s = ({ p with state := updateFields s p.state }, none) := by
  simp only [processFields]
  rw [maybeEmit_dirNone _ _ _ h]

theorem processFields_emit (p : ParserState) (s : List Char) (a : String) (d : Dir)
    (ha : (updateFields s p.state).asset = some a)
    (hd : (updateFields s p.state).direction = some d) :
    processFields p s =
      ({ p with state := { updateFields s p.state with direction := none } },
       some { asset := a, direction := d,
              timeframe_min := (updateFields s p.state).timeframe,
              trade_time := (updateFields s p.state).tradeTime,
              trend := (updateFields s p.state).trend,
              forecast_pct := (updateFields s p.state).forecast,
              payout_pct := (updateFields s p.state).payout,
              raw_block := String.intercalate "\n" (lastN 12 p.blockLines) }) := by
  simp only [processFields]
  rw [maybeEmit_true_some _ _ a d ha hd]

theorem feedLine_blankDirNone (p : ParserState) (line : String)
    (hb : pystrip line.data = []) (hd : p.state.direction = none) :
    feedLine p line = (p, none) := by
  simp only [feedLine, hb, if_pos, if_true, reduceIte,
    maybeEmit_dirNone false p.state p.blockLines hd]

theorem updateFields_tfLine (st : PendingState) :
    updateFields (pystrip tfLine.data) st = { st with timeframe := some 1 } := by
  unfold updateFields applyAsset applyTimeframe applyTradeTime applyDirection
    applyTrend applyForecast applyPayout
  rw [show matchAssetLine (pystrip tfLine.data) = none from by decide,
    show matchTimeframe (pystrip tfLine.data) = some 1 from by decide,
    show matchTradeTime (pystrip tfLine.data) = none from by decide,
    show normalizeDirection (pystrip tfLine.data) = none from by decide,
    show matchTrend (pystrip tfLine.data) = none from by decide,
    show matchForecast (pystrip tfLine.data) = none from by decide,
    show matchPayout (pystrip tfLine.data) = none from by decide]

theorem updateFields_timeLine (st : PendingState) :
    updateFields (pystrip timeLine.data) st = { st with tradeTime := some "23:10:00" } := by
  unfold updateFields applyAsset applyTimeframe applyTradeTime applyDirection
    applyTrend applyForecast applyPayout
  rw [show matchAssetLine (pystrip timeLine.data) = none from by decide,
    show matchTimeframe (pystrip timeLine.data) = none from by decide,
    show matchTradeTime (pystrip timeLine.data) = some "23:10:00".data from by decide,
    show normalizeDirection (pystrip timeLine.data) = none from by decide,
    show matchTrend (pystrip timeLine.data) = none from by decide,
    show matchForecast (pystrip timeLine.data) = none from by decide,
    show matchPayout (pystrip timeLine.data) = none from by decide]

theorem updateFields_trendLine (st : PendingState) :
    updateFields (pystrip trendLine.data) st = { st with trend := some Trend.Sell } := by
  unfold updateFields applyAsset applyTimeframe applyTradeTime applyDirection
    applyTrend applyForecast applyPayout
  rw [show matchAssetLine (pystrip trendLine.data) = none from by decide,
    show matchTimeframe (pystrip trendLine.data) = none from by decide,
    show matchTradeTime (pystrip trendLine.data) = none from by decide,
    show normalizeDirection (pystrip trendLine.data) = none from by decide,
    show matchTrend (pystrip trendLine.data) = some Trend.Sell from by decide,
    show matchForecast (pystrip trendLine.data) = none from by decide,
    show matchPayout (pystrip trendLine.data) = none from by decide]

theorem updateFields_foreLine (st : PendingState) :
    updateFields (pystrip foreLine.data) st =
      { st with forecast := some ((1467 : ℚ) / 20) } := by
  unfold updateFields applyAsset applyTimeframe applyTradeTime applyDirection
    applyTrend applyForecast applyPayout
  rw [show matchAssetLine (pystrip foreLine.data) = none from by decide,
    show matchTimeframe (pystrip foreLine.data) = none from by decide,
    show matchTradeTime (pystrip foreLine.data) = none from by decide,
    show normalizeDirection (pystrip foreLine.data) = none from by decide,
    show matchTrend (pystrip foreLine.data) = none from by decide,
    show matchForecast (pystrip foreLine.data) = some ((1467 : ℚ) / 20) from by
      rw [show matchForecast (pystrip foreLine.data) =
          some ((digitsToNat ['7', '3'] : ℚ) +
            (digitsToNat ['3', '5'] : ℚ) / ((10 : ℚ) ^ (['3', '5'].length))) from rfl]
      norm_num [show digitsToNat ['7', '3'] = 73 from rfl,
        show digitsToNat ['3', '5'] = 35 from rfl],
    show matchPayout (pystrip foreLine.data) = none from by decide]

theorem updateFields_payLine (st : PendingState) :
    updateFields (pystrip payLine.data) st = { st with payout := some (82 : ℚ) } := by
  unfold updateFields applyAsset applyTimeframe applyTradeTime applyDirection
    applyTrend applyForecast applyPayout
  rw [show matchAssetLine (pystrip payLine.data) = none from by decide,
    show matchTimeframe (pystrip payLine.data) = none from by decide,
    show matchTradeTime (pystrip payLine.data) = none from by decide,
    show normalizeDirection (pystrip payLine.data) = none from by decide,
    show matchTrend (pystrip payLine.data) = none from by decide,
    show matchForecast (pystrip payLine.data) = none from by decide,
    show matchPayout (pystrip payLine.data) = some (82 : ℚ) from by
      rw [show matchPayout (pystrip payLine.data) =
          some ((digitsToNat ['8', '2'] : ℚ) +
            (digitsToNat ['0'] : ℚ) / ((10 : ℚ) ^ (['0'].length))) from rfl]
      norm_num [show digitsToNat ['8', '2'] = 82 from rfl,
        show digitsToNat ['0'] = 0 from rfl]]

theorem updateFields_dirLine (st : PendingState) :
    updateFields (pystrip dirLine.data) st = { st with direction := some Dir.put } := by
  unfold updateFields applyAsset applyTimeframe applyTradeTime applyDirection
    applyTrend applyForecast applyPayout
  rw [show matchAssetLine (pystrip dirLine.data) = none from by decide,
    show matchTimeframe (pystrip dirLine.data) = none from by decide,
    show matchTradeTime (pystrip dirLine.data) = none from by decide,
    show normalizeDirection (pystrip dirLine.data) = some Dir.put from by decide,
    show matchTrend (pystrip dirLine.data) = none from by decide,
    show matchForecast (pystrip dirLine.data) = none from by decide,
    show matchPayout (pystrip dirLine.data) = none from by decide]

/-- The pure field-update fold over a list of lines. -/
def midState (mid : List String) (st : PendingState) : PendingState :=
  mid.foldl (fun st l => updateFields (pystrip l.data) st) st

theorem runLines_append (p : ParserState) (xs ys : List String) :
    runLines p (xs ++ ys) =
      ((runLines (runLines p xs).1 ys).1,
       (runLines p xs).2 ++ (runLines (runLines p xs).1 ys).2) := by
  induction xs generalizing p with
  | nil => simp [runLines]
  | cons l rest ih =>
    simp only [List.cons_append, runLines, List.append_eq, ih, List.append_assoc]

theorem feedLine_mid (l : String) (hl : l ∈ midFive) (p : ParserState)
    (hd : p.state.direction = none) :
    feedLine p l = ({ state := updateFields (pystrip l.data) p.state,
                      blockLines := p.blockLines ++ [l] }, none) := by
  fin_cases hl
  · rw [feedLine_plain _ _ (by decide) (by decide),
      show String.mk (pystrip tfLine.data) = tfLine from by decide,
      processFields_dirNone _ _ (by rw [updateFields_tfLine]; exact hd)]
  · rw [feedLine_plain _ _ (by decide) (by decide),
      show String.mk (pystrip timeLine.data) = timeLine from by decide,
      processFields_dirNone _ _ (by rw [updateFields_timeLine]; exact hd)]
  · rw [feedLine_plain _ _ (by decide) (by decide),
      show String.mk (pystrip trendLine.data) = trendLine from by decide,
      processFields_dirNone _ _ (by rw [updateFields_trendLine]; exact hd)]
  · rw [feedLine_plain _ _ (by decide) (by decide),
      show String.mk (pystrip foreLine.data) = foreLine from by decide,
      processFields_dirNone _ _ (by rw [updateFields_foreLine]; exact hd)]
  · rw [feedLine_plain _ _ (by decide) (by decide),
      show String.mk (pystrip payLine.data) = payLine from by decide,
      processFields_dirNone _ _ (by rw [updateFields_payLine]; exact hd)]

theorem updateFields_mid_direction (l : String) (hl : l ∈ midFive)
    (st : PendingState) :
    (updateFields (pystrip l.data) st).direction = st.direction := by
  fin_cases hl
  · rw [updateFields_tfLine]
  · rw [updateFields_timeLine]
  · rw [updateFields_trendLine]
  · rw [updateFields_foreLine]
  · rw [updateFields_payLine]

theorem runLines_mid (mid : List String) :
    (∀ l ∈ mid, l ∈ midFive) → ∀ p : ParserState, p.state.direction = none →
    runLines p mid = ({ state := midState mid p.state,
                        blockLines := p.blockLines ++ mid }, []) := by
  induction mid with
  | nil => intro _ p _; simp [runLines, midState]
  | cons l rest ih =>
    intro hmem p hd
    have hl : l ∈ midFive := hmem l (by simp)
    have hd2 : (updateFields (pystrip l.data) p.state).direction = none := by
      rw [updateFields_mid_direction l hl]; exact hd
    simp only [runLines, feedLine_mid l hl p hd]
    rw [ih (fun x hx => hmem x (by simp [hx])) _ hd2]
    simp [midState, List.append_assoc]

theorem midState_perm (mid : List String) (hp : mid.Perm midFive)
    (st : PendingState) : midState mid st = midState midFive st := by
  refine hp.foldl_eq' ?_ st
  intro x hx y hy z
  have hx5 : x ∈ midFive := hp.mem_iff.mp hx
  have hy5 : y ∈ midFive := hp.mem_iff.mp hy
  fin_cases hx5 <;> fin_cases hy5 <;>
    simp only [updateFields_tfLine, updateFields_timeLine, updateFields_trendLine,
      updateFields_foreLine, updateFields_payLine]

theorem midState_five (st : PendingState) :
    midState midFive st =
      { st with timeframe := some 1, tradeTime := some "23:10:00",
                trend := some Trend.Sell, forecast := some ((1467 : ℚ) / 20),
                payout := some (82 : ℚ) } := by
  show midState [tfLine, timeLine, trendLine, foreLine, payLine] st = _
  simp only [midState, List.foldl_cons, List.foldl_nil, updateFields_tfLine,
    updateFields_timeLine, updateFields_trendLine, updateFields_foreLine,
    updateFields_payLine]

theorem step_asset :
    feedLine initParser assetLine =
      (⟨{ emptyPending with asset := some "USDBDT-OTC" }, [assetLine]⟩, none) := by
  decide

theorem runFinish (p : ParserState)
    (h1 : p.state.asset = some "USDBDT-OTC")
    (h3 : p.state.timeframe = some 1) (h4 : p.state.tradeTime = some "23:10:00")
    (h5 : p.state.trend = some Trend.Sell)
    (h6 : p.state.forecast = some ((1467 : ℚ) / 20))
    (h7 : p.state.payout = some (82 : ℚ)) :
    runLines p [dirLine, ""] =
      (⟨{ p.state with direction := none }, p.blockLines ++ [dirLine]⟩,
       [{ asset := "USDBDT-OTC", direction := Dir.put, timeframe_min := some 1,
          trade_time := some "23:10:00", trend := some Trend.Sell,
          forecast_pct := some ((1467 : ℚ) / 20), payout_pct := some (82 : ℚ),
          raw_block :=
            String.intercalate "\n" (lastN 12 (p.blockLines ++ [dirLine])) }]) := by
  have ha : (updateFields (pystrip dirLine.data) p.state).asset = some "USDBDT-OTC" := by
    rw [updateFields_dirLine]; exact h1
  have hd : (updateFields (pystrip dirLine.data) p.state).direction = some Dir.put := by
    rw [updateFields_dirLine]
  have e1 := feedLine_plain p dirLine (by decide) (by decide)
  rw [show String.mk (pystrip dirLine.data) = dirLine from by decide] at e1
  rw [processFields_emit { p with blockLines := p.blockLines ++ [dirLine] }
    (pystrip dirLine.data) "USDBDT-OTC" Dir.put ha hd] at e1
  simp only [runLines, e1]
  rw [feedLine_blankDirNone _ "" (by decide) rfl]
  simp only [updateFields_dirLine, h3, h4, h5, h6, h7, Option.toList_some,
    Option.toList_none, List.append_nil, List.nil_append, List.cons_append]

/-- The canonical block order of the source-file sample: asset, timeframe,
trade time, direction, trend, forecast, payout, then a blank line. -/
def claim1Lines : List String :=
  [assetLine, tfLine, timeLine, dirLine, trendLine, foreLine, payLine, ""]

/-- C1 (corrected form): with the asset-marker line first, the direction
line last, and the five remaining field lines of the block in any order in
between, followed by a blank line, the parser emits exactly one signal and
it carries all seven fields. -/
theorem C1_complete_block (mid : List String) (hp : mid.Perm midFive) :
    ∃ g : TelegramSignal,
      (runParser (assetLine :: (mid ++ [dirLine, ""]))).2 = [g] ∧
      g.asset = "USDBDT-OTC" ∧ g.direction = Dir.put ∧
      g.timeframe_min = some 1 ∧ g.trade_time = some "23:10:00" ∧
      g.trend = some Trend.Sell ∧ g.forecast_pct = some ((1467 : ℚ) / 20) ∧
      g.payout_pct = some (82 : ℚ) := by
  have hsub : ∀ l ∈ mid, l ∈ midFive := fun l hl => hp.subset hl
  unfold runParser
  simp only [runLines, step_asset]
  rw [runLines_append]
  rw [runLines_mid mid hsub _ rfl]
  rw [midState_perm mid hp, midState_five]
  rw [runFinish _ rfl rfl rfl rfl rfl rfl]
  exact ⟨_, rfl, rfl, rfl, rfl, rfl, rfl, rfl, rfl⟩

theorem applyTimeframe_asset (s : List Char) (st : PendingState) :
    (applyTimeframe s st).asset = st.asset := by
  unfold applyTimeframe; cases matchTimeframe s <;> rfl

theorem applyTradeTime_asset (s : List Char) (st : PendingState) :
    (applyTradeTime s st).asset = st.asset := by
  unfold applyTradeTime; cases matchTradeTime s <;> rfl

theorem applyDirection_asset (s : List Char) (st : PendingState) :
    (applyDirection s st).asset = st.asset := by
  unfold applyDirection; cases normalizeDirection s <;> rfl

theorem applyTrend_asset (s : List Char) (st : PendingState) :
    (applyTrend s st).asset = st.asset := by
  unfold applyTrend; cases matchTrend s <;> rfl

theorem applyForecast_asset (s : List Char) (st : PendingState) :
    (applyForecast s st).asset = st.asset := by
  unfold applyForecast; cases matchForecast s <;> rfl

theorem applyPayout_asset (s : List Char) (st : PendingState) :
    (applyPayout s st).asset = st.asset := by
  unfold applyPayout; cases matchPayout s <;> rfl

theorem applyAsset_direction (s : List Char) (st : PendingState) :
    (applyAsset s st).direction = st.direction := by
  unfold applyAsset; cases matchAssetLine s <;> rfl

theorem applyTimeframe_direction (s : List Char) (st : PendingState) :
    (applyTimeframe s st).direction = st.direction := by
  unfold applyTimeframe; cases matchTimeframe s <;> rfl

theorem applyTradeTime_direction (s : List Char) (st : PendingState) :
    (applyTradeTime s st).direction = st.direction := by
  unfold applyTradeTime; cases matchTradeTime s <;> rfl

theorem applyTrend_direction (s : List Char) (st : PendingState) :
    (applyTrend s st).direction = st.direction := by
  unfold applyTrend; cases matchTrend s <;> rfl

theorem applyForecast_direction (s : List Char) (st : PendingState) :
    (applyForecast s st).direction = st.direction := by
  unfold applyForecast; cases matchForecast s <;> rfl

theorem applyPayout_direction (s : List Char) (st : PendingState) :
    (applyPayout s st).direction = st.direction := by
  unfold applyPayout; cases matchPayout s <;> rfl

theorem updateFields_asset_none (s : List Char)
    (h : matchAssetLine s = none) (st : PendingState) :
    (updateFields s st).asset = st.asset := by
  unfold updateFields
  rw [applyPayout_asset, applyForecast_asset, applyTrend_asset,
    applyDirection_asset, applyTradeTime_asset, applyTimeframe_asset]
  unfold applyAsset; rw [h]

theorem updateFields_direction_none (s : List Char)
    (h : normalizeDirection s = none) (st : PendingState) :
    (updateFields s st).direction = st.direction := by
  unfold updateFields
  rw [applyPayout_direction, applyForecast_direction, applyTrend_direction]
  unfold applyDirection; rw [h]
  rw [applyTradeTime_direction, applyTimeframe_direction, applyAsset_direction]

theorem updateFields_noBoth (s : List Char)
    (hA : matchAssetLine s = none) (hD : normalizeDirection s = none)
    (st : PendingState) (h : NoBoth st) : NoBoth (updateFields s st) := by
  rcases h with h | h
  · exact Or.inl (by rw [updateFields_asset_none s hA]; exact h)
  · exact Or.inr (by rw [updateFields_direction_none s hD]; exact h)

theorem processFields_noEmit (p : ParserState) (s : List Char)
    (h : NoBoth (updateFields s p.state)) : (processFields p s).2 = none := by
  simp only [processFields]
  rw [maybeEmit_noBoth true _ p.blockLines h]

/-- C1, counterexample: feeding the complete block in its published order
(asset, timeframe, trade time, direction, trend, forecast, payout, blank)
emits exactly one signal, but that signal lacks the trend, forecast and
payout fields — the lenient emission fires at the direction line, before
those lines arrive, so the claim that the signal has all seven fields
populated is false. -/
theorem C1_canonical_partial :
    (runParser claim1Lines).2.length = 1 ∧
    ∀ g ∈ (runParser claim1Lines).2,
      g.trend = none ∧ g.forecast_pct = none ∧ g.payout_pct = none := by
  decide

/-- C1 witness instance: one concrete interleaving of the five middle
lines, run through the corrected statement. -/
theorem C1_complete_block_witness :
    ∃ g : TelegramSignal,
      (runParser (assetLine ::
        ([timeLine, tfLine, trendLine, payLine, foreLine] ++ [dirLine, ""]))).2 = [g] ∧
      g.asset = "USDBDT-OTC" ∧ g.direction = Dir.put ∧
      g.timeframe_min = some 1 ∧ g.trade_time = some "23:10:00" ∧
      g.trend = some Trend.Sell ∧ g.forecast_pct = some ((1467 : ℚ) / 20) ∧
      g.payout_pct = some (82 : ℚ) :=
  C1_complete_block [timeLine, tfLine, trendLine, payLine, foreLine] (by decide)

/-- C5: in every reachable parser state the pending record never holds an
asset and a direction at the same time; consequently every strict emission
attempt (the ones made on blank lines and at WIN or asset-marker
boundaries) returns nothing, and in particular feeding a blank line never
emits — every emitted signal comes from the lenient attempt at the end of
a non-blank line. -/
theorem C5_strict_never_emits (p : ParserState) (h : Reachable p) :
    (¬(p.state.asset.isSome ∧ p.state.direction.isSome)) ∧
    (∀ bl : List String, (maybeEmit false p.state bl).1 = none) ∧
    (∀ line : String, pystrip line.data = [] → (feedLine p line).2 = none) := by
  have hnb := reachable_noBoth p h
  refine ⟨?_, ?_, ?_⟩
  · rcases hnb with h1 | h1 <;> simp [h1]
  · intro bl; rw [maybeEmit_noBoth false p.state bl hnb]
  · intro line hb
    simp only [feedLine, hb, if_pos, if_true, reduceIte,
      maybeEmit_noBoth false p.state p.blockLines hnb]

/-- C5 witness: the state reached after an asset line and a direction line
(a state that has just emitted) satisfies the invariant. -/
theorem C5_strict_never_emits_witness :
    ¬((runParser [assetLine, dirLine]).1.state.asset.isSome ∧
      (runParser [assetLine, dirLine]).1.state.direction.isSome) :=
  (C5_strict_never_emits (runParser [assetLine, dirLine]).1
    ⟨[assetLine, dirLine], rfl⟩).1

/-- C7: feeding a line that carries neither an asset-marker field nor a
direction field never emits, from any reachable state. -/
theorem C7_neutral_line_silent (p : ParserState) (h : Reachable p)
    (line : String)
    (hA : matchAssetLine (pystrip line.data) = none)
    (hD : normalizeDirection (pystrip line.data) = none) :
    (feedLine p line).2 = none := by
  have hnb := reachable_noBoth p h
  by_cases hb : pystrip line.data = []
  · simp only [feedLine, hb, if_pos, if_true, reduceIte,
      maybeEmit_noBoth false p.state p.blockLines hnb]
  · by_cases hw : (isWinStart (pystrip line.data) ||
        isAssetStart (pystrip line.data)) = true
    · simp only [feedLine, hb, hw, if_false, if_true, reduceIte,
        maybeEmit_noBoth false p.state _ hnb]
      by_cases hA2 : isAssetStart (pystrip line.data) = true
      · simp only [hA2, if_true, reduceIte]
        exact processFields_noEmit _ _ (updateFields_noBoth _ hA hD _ (Or.inl rfl))
      · simp only [hA2, Bool.false_eq_true, if_false, reduceIte]
        exact processFields_noEmit _ _ (updateFields_noBoth _ hA hD _ hnb)
    · simp only [feedLine, hb, hw, Bool.false_eq_true, if_false, reduceIte]
      exact processFields_noEmit _ _ (updateFields_noBoth _ hA hD _ hnb)

/-- C7 witness: a trend line fed to the freshly initialized parser emits
nothing. -/
theorem C7_neutral_line_silent_witness :
    (feedLine initParser trendLine).2 = none :=
  C7_neutral_line_silent initParser ⟨[], rfl⟩ trendLine (by decide) (by decide)

/-- C6: a successful lenient emission clears exactly the direction field
of the pending record and leaves the other fields unchanged; feeding an
asset line and then a bare direction glyph yields exactly one signal with
no trade time, and a further direction glyph (no new asset marker) yields
a second signal reusing the same asset and timeframe. -/
theorem C6_emission_clears_direction :
    (∀ (st : PendingState) (bl : List String) (a : String) (d : Dir),
        st.asset = some a → st.direction = some d →
        (maybeEmit true st bl).2 = { st with direction := none }) ∧
    ((runParser [assetLine, upLine]).2.map
        (fun g => (g.asset, g.direction, g.trade_time)) =
      [("USDBDT-OTC", Dir.call, none)]) ∧
    ((runParser [assetLine, tfLine, upLine, downLine]).2.map
        (fun g => (g.asset, g.timeframe_min, g.direction)) =
      [("USDBDT-OTC", some 1, Dir.call), ("USDBDT-OTC", some 1, Dir.put)]) := by
  refine ⟨?_, by decide, by decide⟩
  intro st bl a d ha hd
  rw [maybeEmit_true_some st bl a d ha hd]

/-- C6 witness: the frame property applied to a concrete pending record
with asset, timeframe and direction set. -/
theorem C6_emission_clears_direction_witness :
    (maybeEmit true ⟨some "A", some 2, none, some Dir.call, none, none, none⟩ []).2 =
      ⟨some "A", some 2, none, none, none, none, none⟩ :=
  C6_emission_clears_direction.1
    ⟨some "A", some 2, none, some Dir.call, none, none, none⟩ [] "A" Dir.call rfl rfl

/-- C2: the admission filter evaluates forecast-below-threshold, then
asset-cooldown, then missed-entry, first match wins, each match setting
ignored with its reason and suppressing the later rules; an intended entry
instant in the past by no more than the grace still gets reason ok; and an
absent trade epoch skips exactly the missed-entry rule while the forecast
and cooldown rules still apply. -/
theorem C2_admission_rule_order (cfg : S19Config) (cds : List (String × ℚ))
    (now : ℚ) (sig : ScheduledTelegramSignal) :
    (forecastTripsB cfg sig = true →
      filterSignal cfg cds now sig =
        { sig with ignored := true, reason := Reason.forecastBelow }) ∧
    (forecastTripsB cfg sig = false → now < lookupCd cds sig.asset →
      filterSignal cfg cds now sig =
        { sig with ignored := true, reason := Reason.assetCooldown }) ∧
    (∀ te : Int, forecastTripsB cfg sig = false →
      ¬now < lookupCd cds sig.asset → sig.trade_epoch = some te →
      ((te : ℚ) - (sig.entry_lead_s : ℚ)) < now →
      now - ((te : ℚ) - (sig.entry_lead_s : ℚ)) > (cfg.allow_past_grace_s : ℚ) →
      filterSignal cfg cds now sig =
        { sig with ignored := true, reason := Reason.missedEntry }) ∧
    (∀ te : Int, forecastTripsB cfg sig = false →
      ¬now < lookupCd cds sig.asset → sig.trade_epoch = some te →
      ((te : ℚ) - (sig.entry_lead_s : ℚ)) < now →
      ¬now - ((te : ℚ) - (sig.entry_lead_s : ℚ)) > (cfg.allow_past_grace_s : ℚ) →
      filterSignal cfg cds now sig = { sig with reason := Reason.ok }) ∧
    (forecastTripsB cfg sig = false → ¬now < lookupCd cds sig.asset →
      sig.trade_epoch = none →
      filterSignal cfg cds now sig = { sig with reason := Reason.ok }) := by
  unfold filterSignal
  refine ⟨?_, ?_, ?_, ?_, ?_⟩
  · intro hf; rw [if_pos hf]
  · intro hf hc
    rw [if_neg (by simp [hf]), if_pos hc]
  · intro te hf hc hte h1 h2
    rw [if_neg (by simp [hf]), if_neg hc, hte]
    dsimp only
    rw [if_pos h1, if_pos h2]
  · intro te hf hc hte h1 h2
    rw [if_neg (by simp [hf]), if_neg hc, hte]
    dsimp only
    rw [if_pos h1, if_neg h2]
  · intro hf hc hte
    rw [if_neg (by simp [hf]), if_neg hc, hte]

/-- C2 witness: one concrete signal per rule of the priority chain. -/
theorem C2_admission_rule_order_witness :
    (filterSignal ⟨70, 90, 8, false⟩ [] 0
        ⟨"E", Dir.call, none, none, none, some 60, none, "", none, 5, false, Reason.blank⟩ =
      ⟨"E", Dir.call, none, none, none, some 60, none, "", none, 5, true,
        Reason.forecastBelow⟩) ∧
    (filterSignal ⟨70, 90, 8, false⟩ [("E", 100)] 50
        ⟨"E", Dir.call, none, none, none, none, none, "", none, 5, false, Reason.blank⟩ =
      ⟨"E", Dir.call, none, none, none, none, none, "", none, 5, true,
        Reason.assetCooldown⟩) ∧
    (filterSignal ⟨70, 90, 8, false⟩ [] 200
        ⟨"E", Dir.call, none, none, none, none, none, "", some 100, 5, false, Reason.blank⟩ =
      ⟨"E", Dir.call, none, none, none, none, none, "", some 100, 5, true,
        Reason.missedEntry⟩) ∧
    (filterSignal ⟨70, 90, 8, false⟩ [] 98
        ⟨"E", Dir.call, none, none, none, none, none, "", some 100, 5, false, Reason.blank⟩ =
      ⟨"E", Dir.call, none, none, none, none, none, "", some 100, 5, false,
        Reason.ok⟩) ∧
    (filterSignal ⟨70, 90, 8, false⟩ [] 500
        ⟨"E", Dir.call, none, none, none, some 80, none, "", none, 5, false, Reason.blank⟩ =
      ⟨"E", Dir.call, none, none, none, some 80, none, "", none, 5, false,
        Reason.ok⟩) :=
  ⟨(C2_admission_rule_order _ _ _ _).1 (by decide),
   (C2_admission_rule_order _ _ _ _).2.1 (by decide) (by decide),
   (C2_admission_rule_order _ _ _ _).2.2.1 100 (by decide) (by decide) rfl
     (by norm_num) (by norm_num),
   (C2_admission_rule_order _ _ _ _).2.2.2.1 100 (by decide) (by decide) rfl
     (by norm_num) (by norm_num),
   (C2_admission_rule_order _ _ _ _).2.2.2.2 (by decide) (by decide) rfl⟩

/-- C3: for every parsed trade time the resolver returns the wall-clock
instant on the local calendar date of the reference when that candidate is
strictly later than the reference, and exactly one day later otherwise
(equality rolls forward); with offset 0 a reference one second past 10:00
resolves to 10:00 the next day, and a reference at 09:59 resolves to 10:00
the same day. -/
theorem C3_schedule_rollover (hh : String) (h m s : Int) (ref o : Int)
    (hp : parseHMS hh = some (h, m, s)) :
    (ist_epoch_for_trade_time hh ref o =
      (if ref + o < 86400 * ((ref + o).fdiv 86400) + (3600 * h + 60 * m + s) then
         86400 * ((ref + o).fdiv 86400) + (3600 * h + 60 * m + s) - o
       else 86400 * ((ref + o).fdiv 86400) + (3600 * h + 60 * m + s) + 86400 - o)) ∧
    ist_epoch_for_trade_time "10:00" (1728000000 + 36001) 0 =
      1728000000 + 36000 + 86400 ∧
    ist_epoch_for_trade_time "10:00" (1728000000 + 35940) 0 =
      1728000000 + 36000 := by
  refine ⟨?_, by decide, by decide⟩
  unfold ist_epoch_for_trade_time
  rw [hp]
  dsimp only
  generalize (ref + o).fdiv 86400 = q
  by_cases hc : 86400 * q + 3600 * h + 60 * m + s ≤ ref + o
  · rw [if_pos hc, if_neg (by omega)]
    omega
  · rw [if_neg hc, if_pos (by omega)]
    omega

/-- C3 witness: the sample trade time of the source header resolved from
epoch 0 at offset 0. -/
theorem C3_schedule_rollover_witness :
    ist_epoch_for_trade_time "23:10:00" 0 0 = 83400 := by
  have h := (C3_schedule_rollover "23:10:00" 23 10 0 0 0 (by decide)).1
  rw [h]
  decide

/-- C4: the live-follower module can never be imported: both import
attempts demand schedule_signal and ScheduledTelegramSignal from the
reader module, which binds neither name, so module initialization always
ends in the explicit ImportError raise. -/
theorem C4_import_always_fails :
    telegramSignalLiveModuleInit =
      Except.error "Cannot import signal_reader_telegram: ImportError" ∧
    "schedule_signal" ∉ signalReaderTelegramNames ∧
    "ScheduledTelegramSignal" ∉ signalReaderTelegramNames ∧
    "TelegramSignalParser" ∈ signalReaderTelegramNames :=
  ⟨rfl, by decide, by decide, by decide⟩

/-- C8, counterexample: a trade time with four colon-separated fields is
not rejected — the first three components are used and the rest silently
ignored, so the wrong-field-count half of the claim fails. -/
theorem C8_four_fields_accepted :
    (splitCh ':' "1:02:03:04".data).length = 4 ∧
    ist_epoch_for_trade_time "1:02:03:04" 0 0 = 3723 := by
  decide

theorem parseHMS_short (hh : String)
    (h : (splitCh ':' hh.data).length < 2) : parseHMS hh = none := by
  unfold parseHMS
  rcases hsp : splitCh ':' hh.data with _ | ⟨p0, _ | ⟨p1, rest⟩⟩
  · rfl
  · rfl
  · rw [hsp] at h
    simp only [List.length_cons] at h
    omega

/-- C8 (corrected form): a trade time with fewer than two colon-separated
fields, or whose used components fail integer parsing or range checking,
yields the sentinel 0 instead of an exception. -/
theorem C8_malformed_sentinel (hh : String) (ref o : Int)
    (h : (splitCh ':' hh.data).length < 2 ∨ parseHMS hh = none) :
    ist_epoch_for_trade_time hh ref o = 0 := by
  have hn : parseHMS hh = none := by
    rcases h with h | h
    · exact parseHMS_short hh h
    · exact h
  unfold ist_epoch_for_trade_time
  rw [hn]

/-- C8 witness: a non-numeric time and a single-field time both resolve to
the sentinel. -/
theorem C8_malformed_sentinel_witness :
    ist_epoch_for_trade_time "ab:cd" 5 3 = 0 ∧
    ist_epoch_for_trade_time "7" 1 2 = 0 :=
  ⟨C8_malformed_sentinel "ab:cd" 5 3 (Or.inr (by decide)),
   C8_malformed_sentinel "7" 1 2 (Or.inl (by decide))⟩

/-- C10: for a signal whose dedup key is new, handling unconditionally
resets the cooldown of the asset to the handler clock plus the configured
cooldown — whatever the admission verdict, and also when the execution
callback raises (the exception is caught). -/
theorem C10_cooldown_always_set (cfg : S19Config) (st : FollowerState)
    (sig : ScheduledTelegramSignal) (nowF nowE : ℚ) (hasCb cbRaises : Bool)
    (h : sig.key ∉ st.seen) :
    lookupCd (handleSignal cfg st sig nowF nowE hasCb cbRaises).1.cooldowns
        sig.asset = nowE + (cfg.cooldown_same_asset_s : ℚ) := by
  unfold handleSignal
  rw [if_neg h]
  dsimp only
  unfold lookupCd
  rw [List.find?_cons_of_pos _ (by simp)]

/-- C10 witness: a new accepted signal whose callback raises still gets
the fresh cooldown entry. -/
theorem C10_cooldown_always_set_witness :
    lookupCd (handleSignal ⟨70, 90, 8, true⟩ ⟨[], []⟩
        ⟨"E", Dir.call, none, none, none, some 80, none, "", some 100, 5,
         false, Reason.blank⟩ 50 60 true true).1.cooldowns "E" =
      60 + ((90 : Int) : ℚ) :=
  C10_cooldown_always_set ⟨70, 90, 8, true⟩ ⟨[], []⟩
    ⟨"E", Dir.call, none, none, none, some 80, none, "", some 100, 5,
     false, Reason.blank⟩ 50 60 true true (by decide)

/-- Left word-boundary test at position i of l, with b recording whether a
word character immediately precedes position 0 (false for a whole line). -/
def boundaryOK (b : Bool) (l : List Char) (i : Nat) : Bool :=
  if i = 0 then !b else !isWordChar (l.getD (i - 1) ' ')

/-- Case-insensitive match of the word w at position i of l, with a right
word boundary after it. -/
def wordHitAt (w l : List Char) (i : Nat) : Bool :=
  match expectCI w (l.drop i) with
  | some r => (match r with | [] => true | c :: _ => !isWordChar c)
  | none => false

/-- The regex alternation call-or-put applied at one position. -/
def scanCheck (b : Bool) (l : List Char) (i : Nat) : Option Dir :=
  if boundaryOK b l i && wordHitAt ['c', 'a', 'l', 'l'] l i then some Dir.call
  else if boundaryOK b l i && wordHitAt ['p', 'u', 't'] l i then some Dir.put
  else none

/-- Position-indexed reading of the word search: the leftmost position
carrying a whole word call or put decides the direction. -/
def firstWholeWord (l : List Char) : Option Dir :=
  (List.range l.length).findSome? (scanCheck false l)

/-- Position-indexed substring occurrence: pat occurs at some index. -/
def occursAt (pat l : List Char) : Bool :=
  (List.range (l.length + 1)).any (fun i => startsWithB pat (l.drop i))

/-- The corrected reading of the direction extractor: on the lowercased
line, an up glyph or the five characters space-c-a-l-l anywhere (whole
word not required) give call; otherwise a down glyph or space-p-u-t give
put; otherwise the leftmost whole-word call or put of the original line
decides; otherwise there is no direction. -/
def directionSpec (s : List Char) : Option Dir :=
  let low := s.map Char.toLower
  if occursAt ['🔼'] low || occursAt [' ', 'c', 'a', 'l', 'l'] low then
    some Dir.call
  else if occursAt ['🔽'] low || occursAt [' ', 'p', 'u', 't'] low then
    some Dir.put
  else firstWholeWord s

theorem boundaryOK_zero (b : Bool) (l : List Char) : boundaryOK b l 0 = !b := rfl

theorem findSome?_comp_map {α β γ : Type} (g : α → β) (f : β → Option γ) :
    ∀ l : List α, (l.map g).findSome? f = l.findSome? (fun a => f (g a)) := by
  intro l
  induction l with
  | nil => rfl
  | cons a t ih =>
    cases h : f (g a) <;>
      simp [List.findSome?_cons, h, ih]

theorem containsSub_eq_occursAt (pat : List Char) :
    ∀ l : List Char, containsSub pat l = occursAt pat l := by
  intro l
  induction l with
  | nil =>
    simp [containsSub, occursAt, show List.range 1 = [0] from rfl]
  | cons c cs ih =>
    show (startsWithB pat (c :: cs) || containsSub pat cs) = occursAt pat (c :: cs)
    have hr : occursAt pat (c :: cs) =
        (startsWithB pat (c :: cs) || occursAt pat cs) := by
      unfold occursAt
      rw [show (c :: cs).length + 1 = cs.length + 1 + 1 from rfl,
        List.range_succ_eq_map, List.any_cons, List.any_map]
      rfl
    rw [hr, ih]

theorem scanCheck_succ (b : Bool) (c : Char) (cs : List Char) (i : Nat) :
    scanCheck b (c :: cs) (i + 1) = scanCheck (isWordChar c) cs i := by
  unfold scanCheck boundaryOK wordHitAt
  cases i <;> rfl

theorem searchDirWord_eq_scan (l : List Char) : ∀ b : Bool,
    searchDirWord b l = (List.range l.length).findSome? (scanCheck b l) := by
  induction l with
  | nil => intro b; rfl
  | cons c cs ih =>
    intro b
    have hmap : ((List.range cs.length).map Nat.succ).findSome? (scanCheck b (c :: cs))
        = (List.range cs.length).findSome? (scanCheck (isWordChar c) cs) := by
      rw [findSome?_comp_map]
      exact congrArg (fun f => List.findSome? f (List.range cs.length))
        (funext fun i => scanCheck_succ b c cs i)
    rw [show (c :: cs).length = cs.length + 1 from rfl, List.range_succ_eq_map,
      List.findSome?_cons, hmap, ← ih (isWordChar c)]
    show (if !b && wordHitAt ['c', 'a', 'l', 'l'] (c :: cs) 0 then some Dir.call
          else if !b && wordHitAt ['p', 'u', 't'] (c :: cs) 0 then some Dir.put
          else searchDirWord (isWordChar c) cs) = _
    unfold scanCheck
    simp only [boundaryOK_zero]
    by_cases hA : (!b && wordHitAt ['c', 'a', 'l', 'l'] (c :: cs) 0) = true
    · simp [hA]
    · by_cases hB : (!b && wordHitAt ['p', 'u', 't'] (c :: cs) 0) = true
      · simp [hA, hB]
      · simp [hA, hB]

/-- C9, counterexample: the line my-space-callback contains call only as a
proper substring of the word callback (no whole-word call or put occurs in
it), yet the extractor returns call, because its first stage is a plain
substring test for space-call; the whole-word reading of the claim is
therefore false. -/
theorem C9_substring_not_whole_word :
    normalizeDirection "my callback".data = some Dir.call ∧
    firstWholeWord "my callback".data = none ∧
    containsSub [' ', 'c', 'a', 'l', 'l']
      ("my callback".data.map Char.toLower) = true := by
  refine ⟨by decide, by decide, by decide⟩

/-- C9 (corrected form): the extractor is staged — first the substring
tests (up glyph or space-call anywhere of the lowercased line, then down
glyph or space-put), and only then the whole-word search, which is
leftmost-wins between call and put rather than call-first. -/
theorem C9_direction_staged (s : List Char) :
    normalizeDirection s = directionSpec s := by
  simp only [normalizeDirection, directionSpec]
  rw [containsSub_eq_occursAt, containsSub_eq_occursAt, containsSub_eq_occursAt,
    containsSub_eq_occursAt, searchDirWord_eq_scan]
  rfl
